import Mathlib

/-!
Verification development for the System Reliability Assistant (SRA)
incident platform. The repository snapshot ships the dashboard frontend
and the design document; the backend engine components (Ingestion Buffer,
Anomaly Detector, Stability Evaluator, Incident State Manager, Auto-Heal
Executor) are not part of the snapshot, so they are modelled from the
design document, as recorded in the doc comment of each such definition.
The dashboard pages (Incidents.tsx, Runbooks.tsx and the api-key page)
are embedded from the TypeScript source directly.
-/

/-- Severity levels of an anomaly verdict and of an incident (design
document section 3). -/
inductive Severity
  | low
  | medium
  | high
  | critical
  deriving DecidableEq

/-- Numeric rank of a severity, used for ordering and for taking maxima. -/
def Severity.rank : Severity → Nat
  | .low => 0
  | .medium => 1
  | .high => 2
  | .critical => 3

/-- Maximum of two severities by rank; merging keeps the worse severity. -/
def sevMax (a b : Severity) : Severity := if a.rank < b.rank then b else a

/-- Lifecycle states of an incident (design document section 4.4). The state
written open in the design document is named opened here because open is a
reserved word of Lean. -/
inductive Status
  | opened
  | acknowledged
  | investigating
  | resolved
  | closed
  deriving DecidableEq

/-- Anomaly categories (design document section 3). -/
inductive Category
  | errorRate
  | resourceExhaustion
  | latency
  | dependencyFailure
  | patternMatch
  | other
  deriving DecidableEq

/-- Modelled from the spec: an append-only remediation audit record
(design document section 3, RemediationRecord). -/
structure RemediationRecord where
  actionId : String
  target : String
  parameters : List (String × String)
  dryRun : Bool
  success : Bool
  message : String
  executedAt : Nat
  incidentId : Option Nat
  deriving DecidableEq

/-- Modelled from the spec: the externally observable state of the
remediation target platform; adapterCalls counts platform-adapter
invocations and effects logs the operations actually applied
(design document sections 4.5 and 6d). -/
structure PlatformState where
  adapterCalls : Nat
  effects : List (String × String)
  deriving DecidableEq

/-- Modelled from the spec: a platform-adapter invocation performs the real
operation against the target and reports success or failure; every
invocation counts as an external effect (design document section 4.5). -/
def invokeAdapter (adapterOk : String → String → Bool) (action target : String)
    (s : PlatformState) : Bool × PlatformState :=
  (adapterOk action target,
   { adapterCalls := s.adapterCalls + 1, effects := (action, target) :: s.effects })

/-- Modelled from the spec: Auto-Heal Executor execute (design document
section 4.5). With dry_run true it performs no external effect and
synthesizes a successful record; with dry_run false it performs the real
operation and captures a failure in the record instead of propagating it. -/
def execute (adapterOk : String → String → Bool) (action target : String)
    (params : List (String × String)) (dryRun : Bool) (now : Nat)
    (incidentId : Option Nat) (s : PlatformState) :
    RemediationRecord × PlatformState :=
  if dryRun then
    ({ actionId := action, target := target, parameters := params, dryRun := true,
       success := true,
       message := "[DRY RUN] Would execute " ++ action ++ " on " ++ target,
       executedAt := now, incidentId := incidentId }, s)
  else
    let r := invokeAdapter adapterOk action target s
    ({ actionId := action, target := target, parameters := params, dryRun := false,
       success := r.1,
       message := if r.1 then "executed " ++ action ++ " on " ++ target
                  else "failed to execute " ++ action ++ " on " ++ target,
       executedAt := now, incidentId := incidentId }, r.2)

/-- Modelled from the spec: the incident lifecycle transition relation
(design document section 4.4): the chain opened, acknowledged,
investigating, resolved, closed; the agent-report step from opened straight
to investigating; the stable-signal step from acknowledged to resolved; and
the direct dismissal from opened to closed. -/
def allowedTransition : Status → Status → Bool
  | .opened, .acknowledged => true
  | .opened, .investigating => true
  | .opened, .closed => true
  | .acknowledged, .investigating => true
  | .acknowledged, .resolved => true
  | .investigating, .resolved => true
  | .resolved, .closed => true
  | _, _ => false

/-- Validity of a path through the lifecycle state machine: every
consecutive pair must be an allowed transition. -/
def chainOk : List Status → Bool
  | [] => true
  | [_] => true
  | a :: b :: rest => allowedTransition a b && chainOk (b :: rest)

/-- Embedding of the per-character lowercasing applied by the dashboard,
String.prototype.toLowerCase on the ASCII status and keyword values. -/
def lowerStr (s : String) : String := String.mk (s.data.map Char.toLower)

/-- Embedding of the substring test String.prototype.includes, on the
character lists of the two strings. -/
def containsSub (sub : List Char) : List Char → Bool
  | [] => sub.isPrefixOf []
  | c :: rest => sub.isPrefixOf (c :: rest) || containsSub sub rest

/-- Embedding of the substring test on strings: sub occurs inside s. -/
def strContains (s sub : String) : Bool := containsSub sub.data s.data

/-- Dashboard incident row as the Incidents page receives it from the
/incidents endpoint (src/frontend/src/pages/Incidents.tsx, lines 10-19). -/
structure UIIncident where
  id : String
  title : String
  severity : String
  status : String
  service : String
  created : String
  assignee : String
  affectedUsers : Nat
  deriving DecidableEq

/-- Embedding of the filter inside loadIncidents in Incidents.tsx (line 31):
keep only rows whose status lowercases to open. -/
def loadIncidentsFilter (data : List UIIncident) : List UIIncident :=
  data.filter (fun i => lowerStr i.status == "open")

/-- Embedding of the Open counter badge (Incidents.tsx line 80). -/
def openCount (incidents : List UIIncident) : Nat :=
  (incidents.filter (fun i => lowerStr i.status == "open")).length

/-- Embedding of the Investigating counter badge (Incidents.tsx line 83). -/
def investigatingCount (incidents : List UIIncident) : Nat :=
  (incidents.filter
    (fun i => ["acknowledged", "investigating"].contains (lowerStr i.status))).length

/-- Action ids defined by autohealActions (Runbooks.tsx lines 28-97). -/
def autohealActionIds : List String :=
  ["restart_service", "scale_replicas", "flush_cache", "clear_queue",
   "reroute_traffic", "rollback_deployment", "kill_process", "clear_disk"]

/-- Embedding of incidentActionMap (Runbooks.tsx lines 100-112), in the
literal insertion order that Object.entries iterates. -/
def incidentActionMap : List (String × List String) :=
  [("memory", ["restart_service", "scale_replicas", "clear_disk"]),
   ("cpu", ["restart_service", "scale_replicas", "kill_process"]),
   ("connection", ["restart_service", "flush_cache", "scale_replicas"]),
   ("database", ["restart_service", "flush_cache", "clear_queue"]),
   ("cache", ["flush_cache", "restart_service"]),
   ("queue", ["clear_queue", "restart_service", "scale_replicas"]),
   ("latency", ["scale_replicas", "reroute_traffic", "flush_cache"]),
   ("error", ["restart_service", "rollback_deployment", "reroute_traffic"]),
   ("disk", ["clear_disk", "restart_service"]),
   ("deployment", ["rollback_deployment", "restart_service"]),
   ("default", ["restart_service", "scale_replicas", "rollback_deployment"])]

/-- Embedding of the combined lower-cased search text that
getSuggestedActions builds from the incident title and description,
coalescing missing fields to the empty string (Runbooks.tsx lines 115-117). -/
def combinedText (title description : Option String) : String :=
  lowerStr (title.getD "") ++ " " ++ lowerStr (description.getD "")

/-- Embedding of the loop condition of getSuggestedActions (Runbooks.tsx
line 120): the entry is not the default one and its keyword occurs in the
combined text. -/
def suggestedPred (title description : Option String)
    (kv : String × List String) : Bool :=
  kv.1 != "default" && strContains (combinedText title description) kv.1

/-- Embedding of getSuggestedActions (Runbooks.tsx lines 114-125): the
action list of the first matching map entry in insertion order, or the
default list when no keyword matches. -/
def getSuggestedActions (title description : Option String) : List String :=
  match incidentActionMap.find? (suggestedPred title description) with
  | some kv => kv.2
  | none => ["restart_service", "scale_replicas", "rollback_deployment"]

/-- Embedding of maskKey on the api-key page (src/unnamed/part_005, lines
147-150): keys of length at most 12 come back unchanged; longer keys show
the first 8 characters, an ellipsis, and the last 4. -/
def maskKey (key : String) : String :=
  if key.length ≤ 12 then key
  else String.mk (key.data.take 8) ++ "..." ++ String.mk (key.data.drop (key.length - 4))

/-- Embedding of getKeyPrefix on the api-key page (part_005, lines
152-154): the first 12 characters of the key. -/
def getKeyPrefix (key : String) : String := String.mk (key.data.take 12)

/-- Embedding of the request path built by handleRevokeKey
(part_005, line 111). -/
def revokeRequestPath (key : String) : String := "/api-keys/" ++ getKeyPrefix key

/-- Embedding of the request path built by handleDeleteKey
(part_005, line 130). -/
def deleteRequestPath (key : String) : String :=
  "/api-keys/" ++ getKeyPrefix key ++ "/delete"

/-- Modelled from the spec: the anomaly verdict produced once per detector
invocation (design document section 3); the service names the monitored
scope the window came from, which together with the category forms the
dedup key. -/
structure AnomalyVerdict where
  detected : Bool
  category : Category
  severity : Severity
  service : String
  confidence : Nat
  deriving DecidableEq

/-- Modelled from the spec: the central incident entity owned by the
Incident State Manager (design document section 3); the dedup key is
derived from category and service. -/
structure Incident where
  id : Nat
  title : String
  category : Category
  severity : Severity
  status : Status
  service : String
  createdAt : Nat
  updatedAt : Nat
  deriving DecidableEq

/-- Non-terminal lifecycle states: opened, acknowledged and investigating
count as open for deduplication (design document section 4.4). -/
def Status.isActive : Status → Bool
  | .opened => true
  | .acknowledged => true
  | .investigating => true
  | _ => false

/-- Modelled from the spec: a verdict matches an incident when the incident
is still non-terminal and shares the dedup key, category plus service
(design document sections 3 and 4.4). -/
def matchesVerdict (v : AnomalyVerdict) (i : Incident) : Bool :=
  i.status.isActive && i.category == v.category && i.service == v.service

/-- Modelled from the spec: merging a repeated detection into the existing
open incident raises the severity to the maximum of old and new and
refreshes updated_at; nothing else changes (design document section 4.4). -/
def mergeInto (now : Nat) (v : AnomalyVerdict) (i : Incident) : Incident :=
  { i with severity := sevMax i.severity v.severity, updatedAt := now }

/-- Modelled from the spec: the fresh incident created for a verdict with no
matching open incident, in state opened (design document section 4.4). -/
def newIncident (now fresh : Nat) (v : AnomalyVerdict) : Incident :=
  { id := fresh, title := "anomaly detected on " ++ v.service,
    category := v.category, severity := v.severity, status := .opened,
    service := v.service, createdAt := now, updatedAt := now }

/-- Merge a verdict into the first matching incident of the list, leaving
every other incident untouched. -/
def mergeFirst (now : Nat) (v : AnomalyVerdict) : List Incident → List Incident
  | [] => []
  | i :: rest =>
    if matchesVerdict v i then mergeInto now v i :: rest
    else i :: mergeFirst now v rest

/-- Modelled from the spec: the Incident State Manager processing one
anomaly verdict (design document section 4.4): a detected verdict is merged
into the matching open incident when one exists, otherwise a fresh incident
is appended in state opened; a non-detected verdict changes nothing. -/
def processVerdict (now fresh : Nat) (v : AnomalyVerdict)
    (l : List Incident) : List Incident :=
  if !v.detected then l
  else if l.any (matchesVerdict v) then mergeFirst now v l
  else l ++ [newIncident now fresh v]

/-- Two incidents collide when both are non-terminal and share the dedup
key. -/
def sameActiveKey (a b : Incident) : Bool :=
  a.status.isActive && b.status.isActive
    && a.category == b.category && a.service == b.service

/-- The deduplication invariant: no two incidents of the list are
simultaneously non-terminal with the same dedup key, hence at most one open
incident per key. -/
def dedupInvariant (l : List Incident) : Prop :=
  l.Pairwise fun a b => sameActiveKey a b = false

/-- Modelled from the spec: the per-incident root-cause bookkeeping owned by
the Incident State Manager (design document sections 4.4 and 7): the
lifecycle status, the root-cause field, the number of attempted agent calls
and the number of recorded failures. -/
structure RcTracking where
  status : Status
  rootCause : Option String
  attempts : Nat
  failuresRecorded : Nat
  deriving DecidableEq

/-- Modelled from the spec: the manager retries the root-cause call on later
evaluation cycles only while the root-cause field is still empty. -/
def shouldRetry (s : RcTracking) : Bool := s.rootCause.isNone

/-- Modelled from the spec: the handling of one failed or timed-out
root-cause call during an evaluation cycle (design document section 4.4
failure semantics and section 7, AgentUnavailableError): the incident status
is untouched, the failure is recorded, and once the bounded retry count is
exhausted the root-cause field is set to unavailable so that later cycles
stop calling the agent. -/
def agentFailureCycle (maxRetries : Nat) (s : RcTracking) : RcTracking :=
  if shouldRetry s then
    if maxRetries ≤ s.attempts + 1 then
      { s with
          attempts := s.attempts + 1
          failuresRecorded := s.failuresRecorded + 1
          rootCause := some "unavailable" }
    else
      { s with
          attempts := s.attempts + 1
          failuresRecorded := s.failuresRecorded + 1 }
  else s

/-- Log levels (design document section 3). -/
inductive Level
  | debug
  | info
  | warning
  | error
  | critical
  deriving DecidableEq

/-- Modelled from the spec: an immutable log record (design document
section 3); the free-text message is modelled as its list of word tokens,
which the failure-pattern matchers probe. -/
structure LogRecord where
  timestamp : Nat
  level : Level
  service : String
  message : List String
  deriving DecidableEq

/-- Modelled from the spec: an immutable metric sample with the named
numeric fields (design document section 3). -/
structure MetricSample where
  timestamp : Nat
  service : String
  cpuPercent : Int
  memoryPercent : Int
  errorRatePercent : Int
  latencyMs : Int
  deriving DecidableEq

/-- Modelled from the spec: the read-only window handed to the detector
each cycle, scoped to one monitored service (design document section 3). -/
structure Window where
  service : String
  logs : List LogRecord
  metrics : List MetricSample
  deriving DecidableEq

/-- Modelled from the spec: the static operator-configured thresholds of
the Anomaly Detector (design document section 4.2): error-rate percentage,
CPU and memory percentage, latency ceiling, detection margin, and the
libraries of failure-pattern and dependency-failure matchers applied to
log message text. -/
structure DetectorConfig where
  errorRateThreshold : Int
  cpuThreshold : Int
  memoryThreshold : Int
  latencyThreshold : Int
  margin : Int
  failurePatterns : List String
  dependencyPatterns : List String
  deriving DecidableEq

/-- Levels that may contribute to detection (design document section 4.2):
only error and critical records; informational and debug records never do. -/
def Level.isSevere : Level → Bool
  | .error => true
  | .critical => true
  | _ => false

/-- Average-above-bound test without division: the sum of the sampled
values exceeds bound times the sample count exactly when their average
exceeds the bound, and an empty sample list never fires. -/
def crossesAbove (vals : List Int) (bound : Int) : Bool :=
  decide (bound * (vals.length : Int) < vals.sum)

/-- The error-rate readings of a window. -/
def errorRateVals (w : Window) : List Int := w.metrics.map (·.errorRatePercent)

/-- The cpu readings of a window. -/
def cpuVals (w : Window) : List Int := w.metrics.map (·.cpuPercent)

/-- The memory readings of a window. -/
def memoryVals (w : Window) : List Int := w.metrics.map (·.memoryPercent)

/-- The latency readings of a window. -/
def latencyVals (w : Window) : List Int := w.metrics.map (·.latencyMs)

/-- Modelled from the spec: computed severity of a metric category, at
least high on any crossing and critical when the average also crosses
twice the base threshold; the design document only fixes that a crossing
is at least high (section 8). -/
def metricSeverity (vals : List Int) (base : Int) : Severity :=
  if crossesAbove vals (2 * base) then .critical else .high

/-- Modelled from the spec: severe-level records on which a matcher of the
given pattern library fires (design document section 4.2). -/
def matcherHits (patterns : List String) (w : Window) : List LogRecord :=
  w.logs.filter
    (fun r => r.level.isSevere && patterns.any (fun p => r.message.contains p))

/-- Modelled from the spec: computed severity of a matcher category,
critical when a critical-level record was hit, high otherwise. -/
def matchSeverity (hits : List LogRecord) : Severity :=
  if hits.any (fun r => r.level == Level.critical) then .critical else .high

/-- The error-rate category fires when the average error rate crosses the
threshold by the configured margin. -/
def errorRateFires (cfg : DetectorConfig) (w : Window) : Bool :=
  crossesAbove (errorRateVals w) (cfg.errorRateThreshold + cfg.margin)

/-- The resource-exhaustion category fires on a cpu or memory crossing. -/
def resourceFires (cfg : DetectorConfig) (w : Window) : Bool :=
  crossesAbove (cpuVals w) (cfg.cpuThreshold + cfg.margin)
    || crossesAbove (memoryVals w) (cfg.memoryThreshold + cfg.margin)

/-- The latency category fires when average latency crosses the ceiling by
the margin. -/
def latencyFires (cfg : DetectorConfig) (w : Window) : Bool :=
  crossesAbove (latencyVals w) (cfg.latencyThreshold + cfg.margin)

/-- The dependency-failure category fires when a dependency matcher hits a
severe record. -/
def dependencyFires (cfg : DetectorConfig) (w : Window) : Bool :=
  !(matcherHits cfg.dependencyPatterns w).isEmpty

/-- The pattern-match category fires when a failure-pattern matcher hits a
severe record. -/
def patternFires (cfg : DetectorConfig) (w : Window) : Bool :=
  !(matcherHits cfg.failurePatterns w).isEmpty

/-- Severity of the resource-exhaustion category. -/
def resourceSeverity (cfg : DetectorConfig) (w : Window) : Severity :=
  if crossesAbove (cpuVals w) (2 * cfg.cpuThreshold)
      || crossesAbove (memoryVals w) (2 * cfg.memoryThreshold)
  then .critical else .high

/-- Modelled from the spec: the categories that fired on the window,
enumerated in the fixed declared order error-rate, resource-exhaustion,
latency, dependency-failure, pattern-match (design document sections 4.2
and 9), each with its computed severity. -/
def firedCandidates (cfg : DetectorConfig) (w : Window) :
    List (Category × Severity) :=
  (if errorRateFires cfg w then
    [(Category.errorRate, metricSeverity (errorRateVals w) cfg.errorRateThreshold)]
   else []) ++
  (if resourceFires cfg w then
    [(Category.resourceExhaustion, resourceSeverity cfg w)]
   else []) ++
  (if latencyFires cfg w then
    [(Category.latency, metricSeverity (latencyVals w) cfg.latencyThreshold)]
   else []) ++
  (if dependencyFires cfg w then
    [(Category.dependencyFailure, matchSeverity (matcherHits cfg.dependencyPatterns w))]
   else []) ++
  (if patternFires cfg w then
    [(Category.patternMatch, matchSeverity (matcherHits cfg.failurePatterns w))]
   else [])

/-- First-maximum scan: a later candidate replaces the current best only
when strictly more severe, so the first candidate of maximal severity
wins. -/
def pickAux (best : Category × Severity) :
    List (Category × Severity) → Category × Severity
  | [] => best
  | x :: rest => pickAux (if best.2.rank < x.2.rank then x else best) rest

/-- Modelled from the spec: the tie-break selection over the fired
candidates (design document section 4.2): highest computed severity wins
and equal severities fall back to the earlier category in the declared
order, which is the enumeration order of firedCandidates. -/
def pickBest : List (Category × Severity) → Option (Category × Severity)
  | [] => none
  | c :: rest => some (pickAux c rest)

/-- Greatest severity rank among a candidate list. -/
def maxRank (l : List (Category × Severity)) : Nat :=
  l.foldr (fun x m => max x.2.rank m) 0

/-- Modelled from the spec: Anomaly Detector evaluate (design document
section 4.2), a pure function of the window and the configured thresholds:
no fired category gives a non-detection, otherwise the tie-break winner
determines category and severity of the verdict. -/
def evaluate (cfg : DetectorConfig) (w : Window) : AnomalyVerdict :=
  match pickBest (firedCandidates cfg w) with
  | some c =>
    { detected := true, category := c.1, severity := c.2,
      service := w.service, confidence := 1 }
  | none =>
    { detected := false, category := Category.other, severity := Severity.low,
      service := w.service, confidence := 0 }

/-- Concrete detector configuration used to instantiate the tie-break
theorem: error-rate and latency thresholds of 10 with no margin. -/
def tieBreakCfg : DetectorConfig :=
  { errorRateThreshold := 10, cpuThreshold := 85, memoryThreshold := 90,
    latencyThreshold := 10, margin := 0, failurePatterns := [],
    dependencyPatterns := [] }

/-- Concrete window on which both the error-rate and the latency category
fire with equal severity. -/
def tieBreakWindow : Window :=
  { service := "api-gateway", logs := [],
    metrics := [{ timestamp := 0, service := "api-gateway", cpuPercent := 10,
                  memoryPercent := 10, errorRatePercent := 15, latencyMs := 15 }] }

/-- Modelled from the spec: the operator-settable baseline of tracked
metric values (design document sections 3 and 4.3). -/
structure BaselineRec where
  cpu : Int
  memory : Int
  errorRatePercent : Int
  latencyMs : Int
  deriving DecidableEq

/-- Ordinal health classification (design document section 3). -/
inductive Classification
  | stable
  | improving
  | degrading
  | critical
  deriving DecidableEq

/-- Relative deviation of a window average from a baseline value, kept as
an exact fraction: numerator is the absolute distance between the metric
sum and baseline times count, denominator is baseline times count, so that
threshold tests are integer cross-multiplications. -/
structure Deviation where
  num : Int
  den : Int
  deriving DecidableEq

/-- The deviation of a list of readings from a baseline value. -/
def deviationOf (vals : List Int) (base : Int) : Deviation :=
  { num := |vals.sum - base * (vals.length : Int)|,
    den := base * (vals.length : Int) }

/-- Percent-threshold test on a deviation by cross multiplication. -/
def Deviation.exceeds (d : Deviation) (thresholdPercent : Int) : Bool :=
  decide (thresholdPercent * d.den < d.num * 100)

/-- Strict comparison between the current and the previous deviation of the
same metric, by cross multiplication. -/
def Deviation.closerThan (d prev : Deviation) : Bool :=
  decide (d.num * prev.den < prev.num * d.den)

/-- Modelled from the spec: the stability thresholds as percentages of the
baseline; the design document leaves the numeric defaults open
(section 4.3). -/
structure StabilityConfig where
  criticalPercent : Int
  degradingPercent : Int
  deriving DecidableEq

/-- Default stability thresholds of the model: a metric is critical beyond
a 50 percent relative deviation and degrading beyond 20 percent. -/
def defaultStabilityConfig : StabilityConfig :=
  { criticalPercent := 50, degradingPercent := 20 }

/-- Modelled from the spec: a stability report, a fresh snapshot holding
the classification and the per-metric baseline delta (design document
section 3). -/
structure StabilityReport where
  classification : Classification
  cpuDelta : Deviation
  memoryDelta : Deviation
  errorRateDelta : Deviation
  latencyDelta : Deviation
  evaluatedAt : Nat
  deriving DecidableEq

/-- The deviations of the four tracked metrics of a window from the
baseline. -/
def windowDeviations (w : Window) (b : BaselineRec) : List Deviation :=
  [deviationOf (cpuVals w) b.cpu,
   deviationOf (memoryVals w) b.memory,
   deviationOf (errorRateVals w) b.errorRatePercent,
   deviationOf (latencyVals w) b.latencyMs]

/-- Every tracked metric moved strictly closer to baseline than in the
previous report; this models the measurable improvement required for the
improving classification. -/
def allCloser (w : Window) (b : BaselineRec) (prev : StabilityReport) : Bool :=
  (deviationOf (cpuVals w) b.cpu).closerThan prev.cpuDelta
    && (deviationOf (memoryVals w) b.memory).closerThan prev.memoryDelta
    && (deviationOf (errorRateVals w) b.errorRatePercent).closerThan prev.errorRateDelta
    && (deviationOf (latencyVals w) b.latencyMs).closerThan prev.latencyDelta

/-- Modelled from the spec: Stability Evaluator check (design document
section 4.3), classifying by ordinal dominance: critical when any tracked
metric deviates beyond the critical threshold, else degrading when any
deviates beyond the degrading threshold, else improving when every metric
moved measurably closer to baseline than in the previous report, otherwise
stable. -/
def check (cfg : StabilityConfig) (w : Window) (b : BaselineRec)
    (prev : StabilityReport) (now : Nat) : StabilityReport :=
  { classification :=
      if (windowDeviations w b).any (fun d => d.exceeds cfg.criticalPercent) then
        Classification.critical
      else if (windowDeviations w b).any (fun d => d.exceeds cfg.degradingPercent) then
        Classification.degrading
      else if allCloser w b prev then Classification.improving
      else Classification.stable
    cpuDelta := deviationOf (cpuVals w) b.cpu
    memoryDelta := deviationOf (memoryVals w) b.memory
    errorRateDelta := deviationOf (errorRateVals w) b.errorRatePercent
    latencyDelta := deviationOf (latencyVals w) b.latencyMs
    evaluatedAt := now }

/-- Concrete baseline with cpu at 40 percent for the critical instance of
the stability claim. -/
def baselineCpu40 : BaselineRec :=
  { cpu := 40, memory := 50, errorRatePercent := 5, latencyMs := 100 }

/-- Concrete window averaging cpu 92 percent against that baseline; the
other tracked metrics sit exactly at baseline. -/
def windowCpu92 : Window :=
  { service := "api-gateway", logs := [],
    metrics := [{ timestamp := 0, service := "api-gateway", cpuPercent := 92,
                  memoryPercent := 50, errorRatePercent := 5, latencyMs := 100 }] }

/-- Neutral previous report used when instantiating the stability claim. -/
def neutralReport : StabilityReport :=
  { classification := Classification.stable
    cpuDelta := { num := 0, den := 1 }
    memoryDelta := { num := 0, den := 1 }
    errorRateDelta := { num := 0, den := 1 }
    latencyDelta := { num := 0, den := 1 }
    evaluatedAt := 0 }

/-! ## Theorems -/

/-- Helper: a valid chain that starts strictly inside the lifecycle, at
acknowledged, investigating or resolved, and ends in closed passes through
resolved. -/
theorem chain_mid_to_closed_mem_resolved :
    ∀ (p : List Status) (a : Status), chainOk (a :: p) = true →
    (a :: p).getLast? = some .closed →
    (a = .acknowledged ∨ a = .investigating ∨ a = .resolved) →
    Status.resolved ∈ a :: p := by
  intro p
  induction p with
  | nil =>
    intro a _ hlast ha
    simp only [List.getLast?_singleton, Option.some.injEq] at hlast
    rcases ha with h | h | h <;> simp [h] at hlast
  | cons b rest ih =>
    intro a hchain hlast ha
    have h1 : allowedTransition a b = true ∧ chainOk (b :: rest) = true := by
      simpa [chainOk, Bool.and_eq_true] using hchain
    have hlast2 : (b :: rest).getLast? = some .closed := by
      simpa [List.getLast?_cons_cons] using hlast
    rcases ha with h | h | h
    · subst h
      have hb : b = .investigating ∨ b = .resolved := by
        cases b <;> simp [allowedTransition] at h1 <;> simp
      have : Status.resolved ∈ b :: rest :=
        ih b h1.2 hlast2 (Or.inr hb)
      exact List.mem_cons_of_mem _ this
    · subst h
      have hb : b = .resolved := by
        cases b <;> simp [allowedTransition] at h1 <;> rfl
      have : Status.resolved ∈ b :: rest :=
        ih b h1.2 hlast2 (Or.inr (Or.inr hb))
      exact List.mem_cons_of_mem _ this
    · subst h
      exact List.mem_cons_self _ _

/-- Helper: a valid chain from opened to closed is either the single direct
dismissal step or passes through resolved. -/
theorem chain_open_to_closed (p : List Status)
    (hchain : chainOk (Status.opened :: p) = true)
    (hlast : (Status.opened :: p).getLast? = some .closed) :
    Status.opened :: p = [Status.opened, Status.closed] ∨ Status.resolved ∈ p := by
  cases p with
  | nil => simp at hlast
  | cons b rest =>
    have h1 : allowedTransition .opened b = true ∧ chainOk (b :: rest) = true := by
      simpa [chainOk, Bool.and_eq_true] using hchain
    have hlast2 : (b :: rest).getLast? = some .closed := by
      simpa [List.getLast?_cons_cons] using hlast
    cases hb : b with
    | opened => rw [hb] at h1; simp [allowedTransition] at h1
    | resolved => rw [hb] at h1; simp [allowedTransition] at h1
    | acknowledged =>
      subst hb
      exact Or.inr
        (chain_mid_to_closed_mem_resolved rest .acknowledged h1.2 hlast2 (Or.inl rfl))
    | investigating =>
      subst hb
      exact Or.inr
        (chain_mid_to_closed_mem_resolved rest .investigating h1.2 hlast2
          (Or.inr (Or.inl rfl)))
    | closed =>
      subst hb
      cases rest with
      | nil => exact Or.inl rfl
      | cons c rest2 =>
        have h2 : allowedTransition .closed c = true ∧ chainOk (c :: rest2) = true := by
          simpa [chainOk, Bool.and_eq_true] using h1.2
        simp [allowedTransition] at h2

/-- Claim C2: with dry_run set, execute performs zero platform-adapter
invocations, returns a record with success and dry_run both true, and
iterating the dry-run path any number of times leaves the external platform
state unchanged. -/
theorem c2_execute_dry_run_idempotent
    (adapterOk : String → String → Bool) (action target : String)
    (params : List (String × String)) (now : Nat) (incidentId : Option Nat)
    (s : PlatformState) (n : Nat) :
    (execute adapterOk action target params true now incidentId s).1.success = true ∧
    (execute adapterOk action target params true now incidentId s).1.dryRun = true ∧
    (execute adapterOk action target params true now incidentId s).2 = s ∧
    (execute adapterOk action target params true now incidentId s).2.adapterCalls
      = s.adapterCalls ∧
    (fun st => (execute adapterOk action target params true now incidentId st).2)^[n] s
      = s := by
  refine ⟨rfl, rfl, rfl, rfl, ?_⟩
  induction n with
  | zero => rfl
  | succ k ih => rw [Function.iterate_succ_apply]; exact ih

/-- Claim C3: in the lifecycle state machine, closed is entered only from
opened (the direct dismissal) or from resolved, no transition leaves closed,
and every valid transition path from opened that reaches closed is either
the single direct dismissal step or passes through the valid predecessor
resolved. -/
theorem c3_closed_reachability (s t : Status) (p : List Status) :
    (allowedTransition s .closed = true → s = .opened ∨ s = .resolved) ∧
    allowedTransition .closed t = false ∧
    (chainOk (Status.opened :: p) = true →
      (Status.opened :: p).getLast? = some .closed →
      Status.opened :: p = [Status.opened, Status.closed] ∨ Status.resolved ∈ p) := by
  refine ⟨?_, ?_, chain_open_to_closed p⟩
  · cases s <;> decide
  · cases t <;> decide

/-- Concrete instantiation of the C3 theorem on the full five-state chain. -/
theorem c3_closed_reachability_witness :
    Status.opened ::
        [Status.acknowledged, Status.investigating, Status.resolved, Status.closed]
      = [Status.opened, Status.closed] ∨
    Status.resolved ∈
      [Status.acknowledged, Status.investigating, Status.resolved, Status.closed] :=
  (c3_closed_reachability Status.resolved Status.opened
      [Status.acknowledged, Status.investigating, Status.resolved, Status.closed]).2.2
    (by decide) (by decide)

/-- Helper: find? returns the marked element when everything before it
fails the predicate and the element itself satisfies it. -/
theorem find?_append_first_hit {α : Type} (p : α → Bool) :
    ∀ (pre : List α) (x : α) (post : List α),
      (∀ y ∈ pre, p y = false) → p x = true →
      (pre ++ x :: post).find? p = some x := by
  intro pre
  induction pre with
  | nil =>
    intro x post _ hx
    simp [List.find?, hx]
  | cons a as ih =>
    intro x post hpre hx
    have ha : p a = false := hpre a (List.mem_cons_self a as)
    simp only [List.cons_append, List.find?, ha]
    exact ih x post (fun y hy => hpre y (List.mem_cons_of_mem a hy)) hx

/-- Helper: every entry of the embedded incidentActionMap has a nonempty
action list all of whose ids are autoheal action ids. -/
theorem incidentActionMap_entries_ok :
    ∀ kv ∈ incidentActionMap, kv.2 ≠ [] ∧ ∀ a ∈ kv.2, a ∈ autohealActionIds := by
  decide

/-- Claim C8: the Incidents page renders only rows whose status equals open
case-insensitively, so the Investigating counter computed over that already
filtered list is 0 no matter what the backend returned. -/
theorem c8_investigating_counter_zero (data : List UIIncident) :
    (∀ i ∈ loadIncidentsFilter data, lowerStr i.status = "open") ∧
    investigatingCount (loadIncidentsFilter data) = 0 := by
  constructor
  · intro i hi
    exact eq_of_beq (List.mem_filter.mp hi).2
  · unfold investigatingCount loadIncidentsFilter
    rw [List.filter_filter, List.length_eq_zero]
    apply List.filter_eq_nil.mpr
    intro i _
    cases hb : (lowerStr i.status == "open") with
    | false => simp [hb]
    | true =>
      have he : lowerStr i.status = "open" := eq_of_beq hb
      rw [he]
      decide

/-- Concrete instantiation of the C8 theorem: a backend answer holding one
open and one investigating incident yields an Investigating counter of 0. -/
theorem c8_investigating_counter_zero_witness :
    investigatingCount (loadIncidentsFilter
      [{ id := "1", title := "t", severity := "high", status := "Open",
         service := "api", created := "c", assignee := "a", affectedUsers := 0 },
       { id := "2", title := "t", severity := "low", status := "investigating",
         service := "api", created := "c", assignee := "a", affectedUsers := 3 }]) = 0 :=
  (c8_investigating_counter_zero
    [{ id := "1", title := "t", severity := "high", status := "Open",
       service := "api", created := "c", assignee := "a", affectedUsers := 0 },
     { id := "2", title := "t", severity := "low", status := "investigating",
       service := "api", created := "c", assignee := "a", affectedUsers := 3 }]).2

/-- Claim C9: getSuggestedActions is total and never empty, only returns ids
that are keys of autohealActions, falls back to the default list when no
keyword occurs in the combined text, and otherwise answers with the action
list of the first matching keyword in the fixed insertion order of the map. -/
theorem c9_suggested_actions_total (title description : Option String) :
    getSuggestedActions title description ≠ [] ∧
    (∀ a ∈ getSuggestedActions title description, a ∈ autohealActionIds) ∧
    ((∀ kv ∈ incidentActionMap, kv.1 ≠ "default" →
        strContains (combinedText title description) kv.1 = false) →
      getSuggestedActions title description
        = ["restart_service", "scale_replicas", "rollback_deployment"]) ∧
    (∀ pre kv post, incidentActionMap = pre ++ kv :: post →
      kv.1 ≠ "default" →
      strContains (combinedText title description) kv.1 = true →
      (∀ kv2 ∈ pre, kv2.1 = "default" ∨
        strContains (combinedText title description) kv2.1 = false) →
      getSuggestedActions title description = kv.2) := by
  refine ⟨?_, ?_, ?_, ?_⟩
  · cases h : incidentActionMap.find? (suggestedPred title description) with
    | none => simp [getSuggestedActions, h]
    | some kv =>
      have hmem := List.mem_of_find?_eq_some h
      have := (incidentActionMap_entries_ok kv hmem).1
      simpa [getSuggestedActions, h] using this
  · cases h : incidentActionMap.find? (suggestedPred title description) with
    | none =>
      simp only [getSuggestedActions, h]
      decide
    | some kv =>
      have hmem := List.mem_of_find?_eq_some h
      have := (incidentActionMap_entries_ok kv hmem).2
      simpa [getSuggestedActions, h] using this
  · intro hall
    have hnone : incidentActionMap.find? (suggestedPred title description) = none := by
      apply List.find?_eq_none.mpr
      intro kv hkv
      by_cases hd : kv.1 = "default"
      · simp [suggestedPred, hd]
      · simp [suggestedPred, hd, hall kv hkv hd]
    simp [getSuggestedActions, hnone]
  · intro pre kv post hsplit hd hhit hpre
    have hsome : incidentActionMap.find? (suggestedPred title description) = some kv := by
      rw [hsplit]
      apply find?_append_first_hit
      · intro y hy
        rcases hpre y hy with h | h
        · simp [suggestedPred, h]
        · simp [suggestedPred, h]
      · simp [suggestedPred, hd, hhit]
    simp [getSuggestedActions, hsome]

/-- Concrete instantiation of the C9 theorem: a title mentioning memory
selects the memory action list. -/
theorem c9_suggested_actions_total_witness :
    getSuggestedActions (some "High Memory usage on worker") none
      = ["restart_service", "scale_replicas", "clear_disk"] :=
  (c9_suggested_actions_total (some "High Memory usage on worker") none).2.2.2
    [] ("memory", ["restart_service", "scale_replicas", "clear_disk"])
    (incidentActionMap.tail) (by decide) (by decide) (by decide)
    (by intro kv2 h; cases h)

/-- Claim C10: masking returns any key of length at most 12 unchanged even
in masked mode; longer keys keep their first 8 and last 4 characters around
an ellipsis; the key prefix is always the first 12 characters of the key;
and exactly that prefix is the identifier carried by the revoke and delete
request paths. -/
theorem c10_mask_and_prefix_slice (key : String) :
    (key.length ≤ 12 → maskKey key = key) ∧
    (12 < key.length →
      (maskKey key).data
        = key.data.take 8 ++ "...".data ++ key.data.drop (key.length - 4)) ∧
    ( getKeyPrefix key).data = key.data.take 12 ∧
    (12 ≤ key.length → ( getKeyPrefix key).length = 12) ∧
    (revokeRequestPath key).data = "/api-keys/".data ++ key.data.take 12 ∧
    (deleteRequestPath key).data
      = "/api-keys/".data ++ key.data.take 12 ++ "/delete".data := by
  refine ⟨?_, ?_, rfl, ?_, ?_, ?_⟩
  · intro h
    simp [maskKey, h]
  · intro h
    rw [maskKey, if_neg (by omega)]
    simp [String.data_append, List.append_assoc]
  · intro h
    have : ( getKeyPrefix key).length = (key.data.take 12).length := rfl
    rw [this, List.length_take]
    have : key.data.length = key.length := rfl
    omega
  · simp [revokeRequestPath, getKeyPrefix, String.data_append]
  · simp [deleteRequestPath, getKeyPrefix, String.data_append, List.append_assoc]

/-- Concrete instantiation of the C10 theorem: a 12-character key is shown
in full by the masked rendering. -/
theorem c10_mask_and_prefix_slice_witness :
    maskKey "sra_12345678" = "sra_12345678" :=
  (c10_mask_and_prefix_slice "sra_12345678").1 (by decide)

/-- Helper: merging changes neither the lifecycle state nor the dedup key of
the merged incident, so collisions with other incidents are unaffected. -/
theorem sameActiveKey_mergeInto_right (now : Nat) (v : AnomalyVerdict)
    (a b : Incident) : sameActiveKey a (mergeInto now v b) = sameActiveKey a b := rfl

/-- Helper: symmetric version of the previous fact. -/
theorem sameActiveKey_mergeInto_left (now : Nat) (v : AnomalyVerdict)
    (a b : Incident) : sameActiveKey (mergeInto now v a) b = sameActiveKey a b := rfl

/-- Helper: every element of mergeFirst comes from the original list, either
unchanged or merged. -/
theorem mem_mergeFirst (now : Nat) (v : AnomalyVerdict) :
    ∀ (l : List Incident) (b : Incident), b ∈ mergeFirst now v l →
      ∃ b0 ∈ l, b = b0 ∨ b = mergeInto now v b0 := by
  intro l
  induction l with
  | nil => intro b hb; cases hb
  | cons i rest ih =>
    intro b hb
    cases hm : matchesVerdict v i with
    | true =>
      simp only [mergeFirst, hm, if_true] at hb
      rcases List.mem_cons.mp hb with h | h
      · exact ⟨i, List.mem_cons_self i rest, Or.inr h⟩
      · exact ⟨b, List.mem_cons_of_mem i h, Or.inl rfl⟩
    | false =>
      simp only [mergeFirst, hm, Bool.false_eq_true, if_false] at hb
      rcases List.mem_cons.mp hb with h | h
      · exact ⟨i, List.mem_cons_self i rest, Or.inl h⟩
      · obtain ⟨b0, hb0, hor⟩ := ih b h
        exact ⟨b0, List.mem_cons_of_mem i hb0, hor⟩

/-- Helper: merging into the first matching incident preserves the
deduplication invariant. -/
theorem dedupInvariant_mergeFirst (now : Nat) (v : AnomalyVerdict) :
    ∀ l : List Incident, dedupInvariant l → dedupInvariant (mergeFirst now v l) := by
  intro l
  induction l with
  | nil => intro h; exact h
  | cons i rest ih =>
    intro h
    rw [dedupInvariant, List.pairwise_cons] at h
    cases hm : matchesVerdict v i with
    | true =>
      simp only [mergeFirst, hm, if_true]
      rw [dedupInvariant, List.pairwise_cons]
      refine ⟨?_, h.2⟩
      intro b hb
      rw [sameActiveKey_mergeInto_left]
      exact h.1 b hb
    | false =>
      simp only [mergeFirst, hm, Bool.false_eq_true, if_false]
      rw [dedupInvariant, List.pairwise_cons]
      refine ⟨?_, ih h.2⟩
      intro b hb
      obtain ⟨b0, hb0, hor⟩ := mem_mergeFirst now v rest b hb
      rcases hor with hb1 | hb1
      · rw [hb1]
        exact h.1 b0 hb0
      · rw [hb1, sameActiveKey_mergeInto_right]
        exact h.1 b0 hb0

/-- Helper: merging never changes how many incidents exist. -/
theorem length_mergeFirst (now : Nat) (v : AnomalyVerdict) :
    ∀ l : List Incident, (mergeFirst now v l).length = l.length := by
  intro l
  induction l with
  | nil => rfl
  | cons i rest ih =>
    cases hm : matchesVerdict v i <;> simp [mergeFirst, hm, ih]

/-- Helper: when some incident matches, the list splits around the first
match and mergeFirst rewrites exactly that incident. -/
theorem mergeFirst_decomposition (now : Nat) (v : AnomalyVerdict) :
    ∀ l : List Incident, l.any (matchesVerdict v) = true →
      ∃ pre i post, l = pre ++ i :: post ∧ matchesVerdict v i = true ∧
        (∀ j ∈ pre, matchesVerdict v j = false) ∧
        mergeFirst now v l = pre ++ mergeInto now v i :: post := by
  intro l
  induction l with
  | nil => intro h; cases h
  | cons a rest ih =>
    intro h
    cases hm : matchesVerdict v a with
    | true =>
      refine ⟨[], a, rest, rfl, hm, ?_, ?_⟩
      · intro j hj; cases hj
      · simp [mergeFirst, hm]
    | false =>
      have hrest : rest.any (matchesVerdict v) = true := by
        simpa [List.any_cons, hm] using h
      obtain ⟨pre, i, post, hsplit, hmi, hpre, hmerge⟩ := ih hrest
      refine ⟨a :: pre, i, post, by simp [hsplit], hmi, ?_, ?_⟩
      · intro j hj
        rcases List.mem_cons.mp hj with rfl | hj2
        · exact hm
        · exact hpre j hj2
      · simp [mergeFirst, hm, hmerge]

/-- Helper: appending the fresh incident for an unmatched verdict preserves
the deduplication invariant. -/
theorem dedupInvariant_append_new (now fresh : Nat) (v : AnomalyVerdict)
    (l : List Incident) (hinv : dedupInvariant l)
    (hno : l.any (matchesVerdict v) = false) :
    dedupInvariant (l ++ [newIncident now fresh v]) := by
  rw [dedupInvariant, List.pairwise_append]
  refine ⟨hinv, List.pairwise_singleton _ _, ?_⟩
  intro a ha b hb
  rw [List.mem_singleton] at hb
  subst hb
  have hnm : matchesVerdict v a = false := by
    have h2 := (List.any_eq_false.mp hno) a ha
    simpa using h2
  have hkey : sameActiveKey a (newIncident now fresh v) = matchesVerdict v a := by
    simp [sameActiveKey, matchesVerdict, newIncident, Status.isActive]
  rw [hkey, hnm]

/-- Claim C1: processing a detected verdict preserves the at-most-one open
incident per dedup key invariant; when a matching open incident exists the
verdict is merged into the first one, raising severity to the maximum of old
and new and refreshing updated_at, with no new incident created; otherwise
exactly one fresh incident is appended, in state opened. -/
theorem c1_dedup_single_open_incident (now fresh : Nat) (v : AnomalyVerdict)
    (l : List Incident) (hinv : dedupInvariant l) (hdet : v.detected = true) :
    dedupInvariant (processVerdict now fresh v l) ∧
    (l.any (matchesVerdict v) = true →
      (processVerdict now fresh v l).length = l.length ∧
      ∃ pre i post, l = pre ++ i :: post ∧ matchesVerdict v i = true ∧
        processVerdict now fresh v l = pre ++ mergeInto now v i :: post ∧
        (mergeInto now v i).severity = sevMax i.severity v.severity ∧
        (mergeInto now v i).updatedAt = now) ∧
    (l.any (matchesVerdict v) = false →
      processVerdict now fresh v l = l ++ [newIncident now fresh v] ∧
      (newIncident now fresh v).status = Status.opened) := by
  refine ⟨?_, ?_, ?_⟩
  · cases hany : l.any (matchesVerdict v) with
    | true =>
      have hgoal : processVerdict now fresh v l = mergeFirst now v l := by
        simp [processVerdict, hdet, hany]
      rw [hgoal]
      exact dedupInvariant_mergeFirst now v l hinv
    | false =>
      have hgoal : processVerdict now fresh v l = l ++ [newIncident now fresh v] := by
        simp [processVerdict, hdet, hany]
      rw [hgoal]
      exact dedupInvariant_append_new now fresh v l hinv hany
  · intro hany
    have hgoal : processVerdict now fresh v l = mergeFirst now v l := by
      simp [processVerdict, hdet, hany]
    constructor
    · rw [hgoal]
      exact length_mergeFirst now v l
    · obtain ⟨pre, i, post, hsplit, hmi, hpre, hmerge⟩ :=
        mergeFirst_decomposition now v l hany
      exact ⟨pre, i, post, hsplit, hmi, by rw [hgoal, hmerge], rfl, rfl⟩
  · intro hany
    have hgoal : processVerdict now fresh v l = l ++ [newIncident now fresh v] := by
      simp [processVerdict, hdet, hany]
    exact ⟨hgoal, rfl⟩

/-- Concrete instantiation of the C1 theorem: a second resource-exhaustion
detection for service worker keeps the invariant on a one-incident store. -/
theorem c1_dedup_single_open_incident_witness :
    dedupInvariant (processVerdict 7 2
      { detected := true, category := Category.resourceExhaustion,
        severity := Severity.critical, service := "worker", confidence := 1 }
      [{ id := 1, title := "t", category := Category.resourceExhaustion,
         severity := Severity.high, status := Status.opened, service := "worker",
         createdAt := 3, updatedAt := 3 }]) :=
  (c1_dedup_single_open_incident 7 2
    { detected := true, category := Category.resourceExhaustion,
      severity := Severity.critical, service := "worker", confidence := 1 }
    [{ id := 1, title := "t", category := Category.resourceExhaustion,
       severity := Severity.high, status := Status.opened, service := "worker",
       createdAt := 3, updatedAt := 3 }]
    (by simp [dedupInvariant]) rfl).1

/-- Helper: one failing agent cycle on an incident that still lacks a root
cause keeps the status, counts the attempt and the recorded failure, and
sets the root cause to unavailable exactly when the retry budget is now
exhausted. -/
theorem agentFailureCycle_spec (m : Nat) (t : RcTracking)
    (h : t.rootCause = none) :
    (agentFailureCycle m t).status = t.status ∧
    (agentFailureCycle m t).attempts = t.attempts + 1 ∧
    (agentFailureCycle m t).failuresRecorded = t.failuresRecorded + 1 ∧
    (agentFailureCycle m t).rootCause
      = (if m ≤ t.attempts + 1 then some "unavailable" else none) := by
  have hsr : shouldRetry t = true := by simp [shouldRetry, h]
  by_cases hm : m ≤ t.attempts + 1
  · simp [agentFailureCycle, hsr, hm]
  · simp [agentFailureCycle, hsr, hm, h]

/-- Helper: once the root-cause field is filled, a failing cycle is a
no-op, so the manager no longer calls the agent. -/
theorem agentFailureCycle_stuck (m : Nat) (t : RcTracking) (c : String)
    (h : t.rootCause = some c) : agentFailureCycle m t = t := by
  have hsr : shouldRetry t = false := by simp [shouldRetry, h]
  simp [agentFailureCycle, hsr]

/-- Claim C6: a failed or timed-out root-cause call never changes the
incident status; starting from a fresh incident with no root cause, any
sequence of k failing cycles records exactly min k maxRetries failures and
attempts (so retries stop once the bound is reached), the root-cause field
reads unavailable exactly once the bounded retry count is exhausted, and
the allowed state-machine transitions of the incident are unchanged
throughout, so progression is never blocked. -/
theorem c6_agent_failure_bounded_retry (maxRetries : Nat) (s : RcTracking)
    (hmax : 1 ≤ maxRetries) (hfresh : s.attempts = 0)
    (hnone : s.rootCause = none) :
    (∀ t : RcTracking, (agentFailureCycle maxRetries t).status = t.status) ∧
    ∀ k : Nat,
      ((agentFailureCycle maxRetries)^[k] s).status = s.status ∧
      ((agentFailureCycle maxRetries)^[k] s).attempts = min k maxRetries ∧
      ((agentFailureCycle maxRetries)^[k] s).failuresRecorded
        = s.failuresRecorded + min k maxRetries ∧
      ((agentFailureCycle maxRetries)^[k] s).rootCause
        = (if maxRetries ≤ k then some "unavailable" else none) ∧
      (∀ t : Status,
        allowedTransition ((agentFailureCycle maxRetries)^[k] s).status t
          = allowedTransition s.status t) := by
  have hstatus : ∀ t : RcTracking,
      (agentFailureCycle maxRetries t).status = t.status := by
    intro t
    by_cases h : t.rootCause = none
    · exact (agentFailureCycle_spec maxRetries t h).1
    · obtain ⟨c, hc⟩ := Option.ne_none_iff_exists.mp h
      rw [agentFailureCycle_stuck maxRetries t c hc.symm]
  refine ⟨hstatus, ?_⟩
  intro k
  induction k with
  | zero =>
    refine ⟨rfl, ?_, ?_, ?_, fun t => rfl⟩
    · simp only [Function.iterate_zero_apply]
      omega
    · simp only [Function.iterate_zero_apply]
      omega
    · simp only [Function.iterate_zero_apply]
      rw [if_neg (by omega)]
      exact hnone
  | succ k ih =>
    obtain ⟨ihs, iha, ihf, ihr, iht⟩ := ih
    rw [Function.iterate_succ_apply']
    by_cases hk : maxRetries ≤ k
    · have hst := agentFailureCycle_stuck maxRetries
        ((agentFailureCycle maxRetries)^[k] s) "unavailable" (by rw [ihr, if_pos hk])
      rw [hst]
      refine ⟨ihs, by omega, by omega, ?_, iht⟩
      rw [ihr, if_pos hk, if_pos (by omega)]
    · have h0 : ((agentFailureCycle maxRetries)^[k] s).rootCause = none := by
        rw [ihr, if_neg hk]
      obtain ⟨h1, h2, h3, h4⟩ :=
        agentFailureCycle_spec maxRetries ((agentFailureCycle maxRetries)^[k] s) h0
      refine ⟨by rw [h1, ihs], by rw [h2]; omega, by rw [h3]; omega, ?_, ?_⟩
      · rw [h4, iha, show min k maxRetries = k from by omega]
      · intro t
        rw [h1, ihs]

/-- Concrete instantiation of the C6 theorem: with a retry bound of 3, five
consecutive failing cycles leave the root-cause field at unavailable. -/
theorem c6_agent_failure_bounded_retry_witness :
    ((agentFailureCycle 3)^[5]
      { status := Status.opened, rootCause := none, attempts := 0,
        failuresRecorded := 0 }).rootCause = some "unavailable" := by
  have h := ((c6_agent_failure_bounded_retry 3
    { status := Status.opened, rootCause := none, attempts := 0,
      failuresRecorded := 0 } (by decide) rfl rfl).2 5).2.2.2.1
  simpa using h

/-- Claim C5: check classifies by ordinal dominance: any tracked metric
beyond the critical threshold gives critical; else any beyond the degrading
threshold gives degrading; else improving when every metric moved
measurably closer to baseline than the previous report; otherwise stable.
On the default configuration, a baseline of cpu 40 percent against a window
averaging cpu 92 percent is classified critical. -/
theorem c5_check_ordinal_dominance (cfg : StabilityConfig) (w : Window)
    (b : BaselineRec) (prev : StabilityReport) (now : Nat) :
    ((windowDeviations w b).any (fun d => d.exceeds cfg.criticalPercent) = true →
      (check cfg w b prev now).classification = Classification.critical) ∧
    ((windowDeviations w b).any (fun d => d.exceeds cfg.criticalPercent) = false →
     (windowDeviations w b).any (fun d => d.exceeds cfg.degradingPercent) = true →
      (check cfg w b prev now).classification = Classification.degrading) ∧
    ((windowDeviations w b).any (fun d => d.exceeds cfg.criticalPercent) = false →
     (windowDeviations w b).any (fun d => d.exceeds cfg.degradingPercent) = false →
     allCloser w b prev = true →
      (check cfg w b prev now).classification = Classification.improving) ∧
    ((windowDeviations w b).any (fun d => d.exceeds cfg.criticalPercent) = false →
     (windowDeviations w b).any (fun d => d.exceeds cfg.degradingPercent) = false →
     allCloser w b prev = false →
      (check cfg w b prev now).classification = Classification.stable) ∧
    (check defaultStabilityConfig windowCpu92 baselineCpu40 prev now).classification
      = Classification.critical := by
  refine ⟨?_, ?_, ?_, ?_, ?_⟩
  · intro h1
    simp [check, h1]
  · intro h1 h2
    simp [check, h1, h2]
  · intro h1 h2 h3
    simp [check, h1, h2, h3]
  · intro h1 h2 h3
    simp [check, h1, h2, h3]
  · have hfire : (windowDeviations windowCpu92 baselineCpu40).any
        (fun d => d.exceeds defaultStabilityConfig.criticalPercent) = true := by
      decide
    simp [check, hfire]

/-- Concrete instantiation of the C5 theorem: the degrading branch on a
window whose cpu average sits 30 percent above a baseline of 100. -/
theorem c5_check_ordinal_dominance_witness :
    (check defaultStabilityConfig
      { service := "api", logs := [],
        metrics := [{ timestamp := 0, service := "api", cpuPercent := 130,
                      memoryPercent := 50, errorRatePercent := 5, latencyMs := 100 }] }
      { cpu := 100, memory := 50, errorRatePercent := 5, latencyMs := 100 }
      neutralReport 3).classification = Classification.degrading :=
  (c5_check_ordinal_dominance defaultStabilityConfig
    { service := "api", logs := [],
      metrics := [{ timestamp := 0, service := "api", cpuPercent := 130,
                    memoryPercent := 50, errorRatePercent := 5, latencyMs := 100 }] }
    { cpu := 100, memory := 50, errorRatePercent := 5, latencyMs := 100 }
    neutralReport 3).2.1 (by decide) (by decide)

/-- Helper: a pointwise bound on every reading forces the average-crossing
test to fail. -/
theorem crossesAbove_eq_false (vals : List Int) (bound : Int)
    (h : ∀ x ∈ vals, x ≤ bound) : crossesAbove vals bound = false := by
  have hsum : vals.sum ≤ vals.length • bound := List.sum_le_card_nsmul vals bound h
  rw [crossesAbove, decide_eq_false_iff_not, not_lt]
  calc vals.sum ≤ vals.length • bound := hsum
    _ = (vals.length : Int) * bound := by rw [nsmul_eq_mul]
    _ = bound * (vals.length : Int) := mul_comm _ _

/-- Helper: when no severe record carries any of the patterns, the matcher
hits nothing. -/
theorem matcherHits_eq_nil (patterns : List String) (w : Window)
    (h : ∀ r ∈ w.logs, r.level.isSevere = true →
      ∀ p ∈ patterns, r.message.contains p = false) :
    matcherHits patterns w = [] := by
  rw [matcherHits]
  apply List.filter_eq_nil.mpr
  intro r hr
  cases hs : r.level.isSevere with
  | false => simp [hs]
  | true =>
    simp only [hs, Bool.true_and, Bool.not_eq_true]
    apply List.any_eq_false.mpr
    intro p hp
    simpa using h r hr hs p hp

/-- Helper: dropping the informational and debug records of a window
changes nothing the matchers see. -/
theorem matcherHits_filter_severe (patterns : List String) (w : Window) :
    matcherHits patterns
        { w with logs := w.logs.filter (fun r => r.level.isSevere) }
      = matcherHits patterns w := by
  simp only [matcherHits]
  rw [List.filter_filter]
  apply List.filter_congr
  intro r _
  cases hs : r.level.isSevere <;> simp [hs]

/-- Claim C4: evaluate is conservative: when every metric reading stays at
or below its configured threshold plus margin and no failure-pattern or
dependency matcher token occurs in any severe-level record, the verdict has
detected set to false; and informational or debug records never contribute,
since the verdict on the window restricted to severe records is identical. -/
theorem c4_evaluate_conservative (cfg : DetectorConfig) (w : Window)
    (herr : ∀ m ∈ w.metrics, m.errorRatePercent ≤ cfg.errorRateThreshold + cfg.margin)
    (hcpu : ∀ m ∈ w.metrics, m.cpuPercent ≤ cfg.cpuThreshold + cfg.margin)
    (hmem : ∀ m ∈ w.metrics, m.memoryPercent ≤ cfg.memoryThreshold + cfg.margin)
    (hlat : ∀ m ∈ w.metrics, m.latencyMs ≤ cfg.latencyThreshold + cfg.margin)
    (hpat : ∀ r ∈ w.logs, r.level.isSevere = true →
      (∀ p ∈ cfg.failurePatterns, r.message.contains p = false) ∧
      (∀ p ∈ cfg.dependencyPatterns, r.message.contains p = false)) :
    (evaluate cfg w).detected = false ∧
    evaluate cfg { w with logs := w.logs.filter (fun r => r.level.isSevere) }
      = evaluate cfg w := by
  constructor
  · have g1 : errorRateFires cfg w = false := by
      apply crossesAbove_eq_false
      intro x hx
      simp only [errorRateVals, List.mem_map] at hx
      obtain ⟨m, hm, rfl⟩ := hx
      exact herr m hm
    have gcpu : crossesAbove (cpuVals w) (cfg.cpuThreshold + cfg.margin) = false := by
      apply crossesAbove_eq_false
      intro x hx
      simp only [cpuVals, List.mem_map] at hx
      obtain ⟨m, hm, rfl⟩ := hx
      exact hcpu m hm
    have gmem : crossesAbove (memoryVals w) (cfg.memoryThreshold + cfg.margin)
        = false := by
      apply crossesAbove_eq_false
      intro x hx
      simp only [memoryVals, List.mem_map] at hx
      obtain ⟨m, hm, rfl⟩ := hx
      exact hmem m hm
    have g2 : resourceFires cfg w = false := by
      simp [resourceFires, gcpu, gmem]
    have g3 : latencyFires cfg w = false := by
      apply crossesAbove_eq_false
      intro x hx
      simp only [latencyVals, List.mem_map] at hx
      obtain ⟨m, hm, rfl⟩ := hx
      exact hlat m hm
    have g4 : dependencyFires cfg w = false := by
      have := matcherHits_eq_nil cfg.dependencyPatterns w
        (fun r hr hs p hp => (hpat r hr hs).2 p hp)
      simp [dependencyFires, this]
    have g5 : patternFires cfg w = false := by
      have := matcherHits_eq_nil cfg.failurePatterns w
        (fun r hr hs p hp => (hpat r hr hs).1 p hp)
      simp [patternFires, this]
    simp [evaluate, firedCandidates, g1, g2, g3, g4, g5, pickBest]
  · have hdep := matcherHits_filter_severe cfg.dependencyPatterns w
    have hfail := matcherHits_filter_severe cfg.failurePatterns w
    have hfc : firedCandidates cfg
          { w with logs := w.logs.filter (fun r => r.level.isSevere) }
        = firedCandidates cfg w := by
      simp only [firedCandidates, errorRateFires, resourceFires, latencyFires,
        dependencyFires, patternFires, errorRateVals, cpuVals, memoryVals,
        latencyVals, resourceSeverity, hdep, hfail]
    simp only [evaluate, hfc]

/-- Concrete instantiation of the C4 theorem: a healthy window with an
informational connection-refused log yields no detection. -/
theorem c4_evaluate_conservative_witness :
    (evaluate
      { errorRateThreshold := 5, cpuThreshold := 85, memoryThreshold := 90,
        latencyThreshold := 2000, margin := 2,
        failurePatterns := ["fatal"], dependencyPatterns := ["refused"] }
      { service := "api-gateway",
        logs := [{ timestamp := 1, level := Level.info, service := "api-gateway",
                   message := ["connection", "refused"] }],
        metrics := [{ timestamp := 1, service := "api-gateway", cpuPercent := 35,
                      memoryPercent := 48, errorRatePercent := 1,
                      latencyMs := 120 }] }).detected = false :=
  (c4_evaluate_conservative
    { errorRateThreshold := 5, cpuThreshold := 85, memoryThreshold := 90,
      latencyThreshold := 2000, margin := 2,
      failurePatterns := ["fatal"], dependencyPatterns := ["refused"] }
    { service := "api-gateway",
      logs := [{ timestamp := 1, level := Level.info, service := "api-gateway",
                 message := ["connection", "refused"] }],
      metrics := [{ timestamp := 1, service := "api-gateway", cpuPercent := 35,
                    memoryPercent := 48, errorRatePercent := 1,
                    latencyMs := 120 }] }
    (by decide) (by decide) (by decide) (by decide) (by decide)).1

/-- Helper: every candidate severity rank is bounded by maxRank. -/
theorem rank_le_maxRank :
    ∀ (l : List (Category × Severity)) (x : Category × Severity), x ∈ l →
      x.2.rank ≤ maxRank l := by
  intro l
  induction l with
  | nil => intro x hx; cases hx
  | cons a as ih =>
    intro x hx
    rcases List.mem_cons.mp hx with h | h
    · subst h
      simp only [maxRank, List.foldr_cons]
      omega
    · have := ih x h
      simp only [maxRank, List.foldr_cons] at this ⊢
      omega

/-- Helper: the first-maximum scan returns a candidate of maximal severity
rank, and it is precisely the first listed candidate attaining that rank. -/
theorem pickAux_first_max :
    ∀ (l : List (Category × Severity)) (best : Category × Severity),
      (pickAux best l).2.rank = max best.2.rank (maxRank l) ∧
      (best :: l).find? (fun x => x.2.rank == max best.2.rank (maxRank l))
        = some (pickAux best l) := by
  intro l
  induction l with
  | nil =>
    intro best
    constructor
    · simp [pickAux, maxRank]
    · simp [pickAux, maxRank, List.find?]
  | cons x rest ih =>
    intro best
    by_cases hlt : best.2.rank < x.2.rank
    · have hpick : pickAux best (x :: rest) = pickAux x rest := by
        simp [pickAux, hlt]
      have hxle : x.2.rank ≤ max x.2.rank (maxRank rest) := by omega
      have hmax : max best.2.rank (maxRank (x :: rest))
          = max x.2.rank (maxRank rest) := by
        simp only [maxRank, List.foldr_cons]
        omega
      obtain ⟨ih1, ih2⟩ := ih x
      refine ⟨by rw [hpick, ih1, hmax], ?_⟩
      rw [hpick, hmax]
      have hb : (best.2.rank == max x.2.rank (maxRank rest)) = false := by
        have : best.2.rank ≠ max x.2.rank (maxRank rest) := by omega
        simpa using this
      rw [List.find?_cons_of_neg _ (by simp [hb]), ih2]
    · have hpick : pickAux best (x :: rest) = pickAux best rest := by
        simp [pickAux, hlt]
      have hxle : x.2.rank ≤ best.2.rank := by omega
      have hmax : max best.2.rank (maxRank (x :: rest))
          = max best.2.rank (maxRank rest) := by
        simp only [maxRank, List.foldr_cons]
        omega
      obtain ⟨ih1, ih2⟩ := ih best
      refine ⟨by rw [hpick, ih1, hmax], ?_⟩
      rw [hpick, hmax]
      by_cases hb : best.2.rank = max best.2.rank (maxRank rest)
      · have hpb : (best.2.rank == max best.2.rank (maxRank rest)) = true := by
          simpa using hb
        have hfb := ih2
        rw [List.find?_cons_of_pos _ (by simp [hpb])] at hfb
        rw [List.find?_cons_of_pos _ (by simp [hpb])]
        exact hfb
      · have hble : best.2.rank ≤ max best.2.rank (maxRank rest) := by omega
        have hpb : (best.2.rank == max best.2.rank (maxRank rest)) = false := by
          simpa using hb
        have hpx : (x.2.rank == max best.2.rank (maxRank rest)) = false := by
          have : x.2.rank ≠ max best.2.rank (maxRank rest) := by omega
          simpa using this
        have hfb := ih2
        rw [List.find?_cons_of_neg _ (by simp [hpb])] at hfb
        rw [List.find?_cons_of_neg _ (by simp [hpb]),
          List.find?_cons_of_neg _ (by simp [hpx])]
        exact hfb

/-- Helper: the fired categories always come out as a subsequence of the
fixed declared order. -/
theorem firedCandidates_categories_ordered (cfg : DetectorConfig) (w : Window) :
    ((firedCandidates cfg w).map Prod.fst).Sublist
      [Category.errorRate, Category.resourceExhaustion, Category.latency,
       Category.dependencyFailure, Category.patternMatch] := by
  cases h1 : errorRateFires cfg w <;> cases h2 : resourceFires cfg w <;>
    cases h3 : latencyFires cfg w <;> cases h4 : dependencyFires cfg w <;>
      cases h5 : patternFires cfg w <;>
        simp only [firedCandidates, h1, h2, h3, h4, h5, Bool.false_eq_true,
          if_false, if_true, List.nil_append, List.append_nil, List.cons_append,
          List.map_cons, List.map_nil, List.map_append] <;>
        decide

/-- Claim C7: when categories fire on a window, the verdict is detected and
carries a fired candidate of maximal computed severity; that candidate is
the first one attaining the maximum in the fixed declared category order
(error-rate, resource-exhaustion, latency, dependency-failure,
pattern-match), of which the fired list is always a subsequence, so the
choice is a deterministic function of the window and the thresholds. -/
theorem c7_tie_break (cfg : DetectorConfig) (w : Window)
    (hne : firedCandidates cfg w ≠ []) :
    ∃ c : Category × Severity,
      pickBest (firedCandidates cfg w) = some c ∧
      (evaluate cfg w).detected = true ∧
      (evaluate cfg w).category = c.1 ∧
      (evaluate cfg w).severity = c.2 ∧
      c ∈ firedCandidates cfg w ∧
      (∀ x ∈ firedCandidates cfg w, x.2.rank ≤ c.2.rank) ∧
      (firedCandidates cfg w).find? (fun x => x.2.rank == c.2.rank) = some c ∧
      ((firedCandidates cfg w).map Prod.fst).Sublist
        [Category.errorRate, Category.resourceExhaustion, Category.latency,
         Category.dependencyFailure, Category.patternMatch] := by
  obtain ⟨a, l, hal⟩ := List.exists_cons_of_ne_nil hne
  obtain ⟨h1, h2⟩ := pickAux_first_max l a
  have hpb : pickBest (firedCandidates cfg w) = some (pickAux a l) := by
    rw [hal]
    rfl
  refine ⟨pickAux a l, hpb, ?_, ?_, ?_, ?_, ?_, ?_,
    firedCandidates_categories_ordered cfg w⟩
  · simp [evaluate, hpb]
  · simp [evaluate, hpb]
  · simp [evaluate, hpb]
  · rw [hal]
    exact List.mem_of_find?_eq_some (h1 ▸ h2)
  · intro x hx
    rw [hal] at hx
    rw [h1]
    rcases List.mem_cons.mp hx with h | h
    · subst h
      omega
    · have := rank_le_maxRank l x h
      omega
  · rw [hal, h1]
    exact h2

/-- Concrete instantiation of the C7 theorem: on a window where error-rate
and latency fire with equal severity, a detection is produced. -/
theorem c7_tie_break_witness :
    (evaluate tieBreakCfg tieBreakWindow).detected = true := by
  obtain ⟨c, hpb, hdet, hrest⟩ := c7_tie_break tieBreakCfg tieBreakWindow (by decide)
  exact hdet
